import Mathlib

/-!
Verification of the smanager sound-asset manager.

Shallow embedding of the repository's core: the `SoundPromise` load-state
machine (src/src/sound-promise.ts, plus the bundled variant at the end of
the sound-manager bundle), the buffer `fill` helpers, the file-id parsers,
and the `SoundManager` facade (atlas lookups, `loadItem` caching,
`setLanguage`, `getSourceNames`, disposal and reload).

Modelling conventions:
* Audio sample values are abstracted to integers; every property proved
  here concerns which positions are copied or preserved, not float
  arithmetic.
* JS `Map`s are association lists; `Map.delete` becomes `List.filter`
  (keys are unique by construction, since entries are only inserted after
  a `has` check fails).
* Object identity of tokens (`===`) is modelled with numeric ids allocated
  from a counter kept in the manager state.
* Synchronous effects (network fetches, dispatched events) are recorded in
  an ordered log; asynchronous continuations (the decode pipeline) are
  modelled as separate functions on the settlement outcome.
-/

namespace SManager

/-- The five token states of `SoundPromise.State`. -/
inductive SPState where
  | UNLOADED
  | LOADING
  | LOADED
  | REJECTED
  | DISPOSED
deriving DecidableEq, Repr

/-- A decoded audio buffer: the repo's `MockAudioBuffer` shape
(`numberOfChannels`, `length`, `sampleRate`, per-channel data;
`legacy` mirrors the mock option that removes `copyFromChannel` /
`copyToChannel`). Sample values are abstracted to `Int`. -/
structure AudioBuffer where
  numberOfChannels : Nat
  length : Nat
  sampleRate : Nat
  channelData : List (List Int)
  legacy : Bool := false
deriving DecidableEq, Repr

/-- A buffer all of whose channel arrays exist and have the advertised
length, as every buffer built by the repo's constructors does
(`channelData = Array.from that many Float32Array(length)`). -/
def AudioBuffer.WellFormed (b : AudioBuffer) : Prop :=
  b.channelData.length = b.numberOfChannels ∧
    ∀ c ∈ b.channelData, c.length = b.length

instance (b : AudioBuffer) : Decidable b.WellFormed := by
  unfold AudioBuffer.WellFormed
  infer_instance

/-- Sample read: channel `ch`, index `i`, out-of-range reads give 0
(a fresh `Float32Array` slot). -/
def AudioBuffer.sample (b : AudioBuffer) (ch i : Nat) : Int :=
  (b.channelData.getD ch []).getD i 0

/-- `context.createBuffer(nch, len, rate)` as the repo's `MockContext`
builds it: `nch` channels of `len` zero samples. -/
def createBuffer (nch len rate : Nat) : AudioBuffer :=
  { numberOfChannels := nch
    length := len
    sampleRate := rate
    channelData := List.replicate nch (List.replicate len 0) }

/-- The settlement of the token's internal `Promise`: fulfilled with a
buffer-or-null, or rejected with an error message. JS promises settle at
most once; later `resolve`/`reject` calls do not change it. -/
abbrev Settlement := Except String (Option AudioBuffer)

instance : DecidableEq Settlement := fun a b =>
  match a, b with
  | Except.ok x, Except.ok y =>
      if h : x = y then isTrue (by simp [h]) else isFalse (by simp [h])
  | Except.error x, Except.error y =>
      if h : x = y then isTrue (by simp [h]) else isFalse (by simp [h])
  | Except.ok _, Except.error _ => isFalse (by simp)
  | Except.error _, Except.ok _ => isFalse (by simp)

/-- The `SoundPromise` of src/src/sound-promise.ts: mutable `state` and
`value` fields plus the internal promise, here its (one-shot)
settlement. -/
structure SoundPromise where
  state : SPState
  value : Option AudioBuffer
  settled : Option Settlement
deriving DecidableEq, Repr

namespace SoundPromise

/-- `SoundPromise.new()`: fresh UNLOADED token, `value = null`, internal
promise pending. -/
def new : SoundPromise :=
  { state := .UNLOADED, value := none, settled := none }

/-- The `resolve` wrapper installed by the constructor of
src/src/sound-promise.ts: sets `state` to REJECTED when the value is
`null` and LOADED otherwise, stores the value, and fulfills the internal
promise (first settlement wins). -/
def resolveOp (p : SoundPromise) (v : Option AudioBuffer) : SoundPromise :=
  { p with
      state := if v = none then .REJECTED else .LOADED
      value := v
      settled := some (p.settled.getD (Except.ok v)) }

/-- The `reject` wrapper: state REJECTED, `value = null`, internal promise
rejected (first settlement wins). -/
def rejectOp (p : SoundPromise) (e : String) : SoundPromise :=
  { p with
      state := .REJECTED
      value := none
      settled := some (p.settled.getD (Except.error e)) }

/-- `dispose()`: unless already DISPOSED, `resolve(null)` then force the
state to DISPOSED. -/
def disposeOp (p : SoundPromise) : SoundPromise :=
  if p.state = .DISPOSED then p
  else { p.resolveOp none with state := .DISPOSED }

/-- `SoundPromise.from(null)`: a fresh token immediately resolved with
`null`. -/
def fromNull : SoundPromise := new.resolveOp none

end SoundPromise

/-- The SoundPromise variant bundled at the end of the sound-manager
bundle (part_002): `resolve`/`reject` are the *raw* promise executor
functions, and `state`/`value` are updated lazily by the continuations
that `then`/`catch` install. -/
structure SoundPromiseV2 where
  state : SPState
  value : Option AudioBuffer
  settled : Option Settlement
deriving DecidableEq, Repr

namespace SoundPromiseV2

/-- Fresh token of the bundled variant. -/
def new : SoundPromiseV2 :=
  { state := .UNLOADED, value := none, settled := none }

/-- Raw `resolve`: fulfills the internal promise only; `state` and `value`
are untouched until a `then` continuation runs. -/
def resolveOp (p : SoundPromiseV2) (v : Option AudioBuffer) : SoundPromiseV2 :=
  { p with settled := some (p.settled.getD (Except.ok v)) }

/-- The fulfillment continuation that this variant's `then` installs:
on fulfillment it records `this.value = value` and
`this.state = LOADED` (even for a `null` value); rejections are left to
the `catch` continuation. -/
def thenObserve (p : SoundPromiseV2) : SoundPromiseV2 :=
  match p.settled with
  | some (Except.ok v) => { p with value := v, state := .LOADED }
  | _ => p

end SoundPromiseV2

end SManager

namespace SManager

/-! ## Claims C1 and C10: resolve(null) and dispose on tokens -/

/-- C1 counterexample: in src/src/sound-promise.ts, `resolve(null)` on a
fresh token leaves the token in state REJECTED, not the claimed LOADED. -/
theorem resolveNull_state_rejected_cex :
    (SoundPromise.new.resolveOp none).state = SPState.REJECTED ∧
      SPState.REJECTED ≠ SPState.LOADED := by
  constructor
  · rfl
  · decide

/-- C1 (amended): for any not-yet-settled token, `resolve(null)` fulfills
the internal promise with `null` — waiters see `null` through fulfillment
handlers, not rejection handlers — but the token's `state` becomes
REJECTED in src/src/sound-promise.ts; only the bundled part_002 variant
reaches LOADED, and only once its `then` fulfillment continuation has
run. -/
theorem resolveNull_fulfills_but_marks_rejected
    (p : SoundPromise) (q : SoundPromiseV2)
    (hp : p.settled = none) (hq : q.settled = none) :
    (p.resolveOp none).settled = some (Except.ok none) ∧
      (p.resolveOp none).state = SPState.REJECTED ∧
      (q.resolveOp none).settled = some (Except.ok none) ∧
      ((q.resolveOp none).thenObserve).state = SPState.LOADED := by
  refine ⟨?_, rfl, ?_, ?_⟩
  · simp [SoundPromise.resolveOp, hp]
  · simp [SoundPromiseV2.resolveOp, hq]
  · simp [SoundPromiseV2.resolveOp, SoundPromiseV2.thenObserve, hq]

/-- C1 witness: the amended theorem applied to fresh tokens. -/
theorem resolveNull_fulfills_but_marks_rejected_witness :
    (SoundPromise.new.resolveOp none).settled = some (Except.ok none) ∧
      (SoundPromise.new.resolveOp none).state = SPState.REJECTED ∧
      (SoundPromiseV2.new.resolveOp none).settled = some (Except.ok none) ∧
      ((SoundPromiseV2.new.resolveOp none).thenObserve).state = SPState.LOADED :=
  resolveNull_fulfills_but_marks_rejected SoundPromise.new SoundPromiseV2.new rfl rfl

/-- C10: disposing a token in any non-DISPOSED state (in particular a
LOADED token holding a buffer) leaves state DISPOSED and value `null`,
and a second `dispose()` changes nothing. -/
theorem dispose_clears_value (p : SoundPromise) (h : p.state ≠ SPState.DISPOSED) :
    p.disposeOp.state = SPState.DISPOSED ∧ p.disposeOp.value = none ∧
      ∀ q : SoundPromise, q.disposeOp.disposeOp = q.disposeOp := by
  refine ⟨?_, ?_, ?_⟩
  · simp [SoundPromise.disposeOp, h]
  · simp [SoundPromise.disposeOp, h, SoundPromise.resolveOp]
  · intro q
    by_cases hq : q.state = SPState.DISPOSED
    · simp [SoundPromise.disposeOp, hq]
    · simp [SoundPromise.disposeOp, hq]

/-- C10 witness: a LOADED token holding a (non-null) one-sample buffer. -/
theorem dispose_clears_value_witness :
    ({ state := .LOADED, value := some (createBuffer 1 1 48000),
       settled := some (Except.ok (some (createBuffer 1 1 48000))) } :
        SoundPromise).disposeOp.state = SPState.DISPOSED ∧
    ({ state := .LOADED, value := some (createBuffer 1 1 48000),
       settled := some (Except.ok (some (createBuffer 1 1 48000))) } :
        SoundPromise).disposeOp.value = none ∧
    ∀ q : SoundPromise, q.disposeOp.disposeOp = q.disposeOp :=
  dispose_clears_value _ (by decide)

end SManager

namespace SManager

/-! ## JS string and number primitives used by the file-id parsers

All character-list operations are structural recursions so that concrete
inputs evaluate inside the kernel. -/

/-- Decimal digit test. -/
def isDigitCh (c : Char) : Bool := '0' ≤ c && c ≤ '9'

/-- JS whitespace (the cases relevant to file ids). -/
def isWsCh (c : Char) : Bool := c == ' ' || c == '\t' || c == '\n' || c == '\r'

/-- Trim leading and trailing whitespace. -/
def trimChars (l : List Char) : List Char :=
  ((l.dropWhile isWsCh).reverse.dropWhile isWsCh).reverse

/-- Value of a (non-empty) digit string, most significant first. -/
def natOfDigits (l : List Char) : Nat :=
  l.foldl (fun a c => a * 10 + (c.toNat - '0'.toNat)) 0

/-- JS `String.prototype.split(sep)` for a one-character separator:
never returns an empty array; `"".split(".") = [""]`. -/
def splitOnChar (sep : Char) : List Char → List (List Char)
  | [] => [[]]
  | c :: cs =>
      let r := splitOnChar sep cs
      if c == sep then [] :: r
      else
        match r with
        | [] => [[c]]
        | h :: t => (c :: h) :: t

/-- Result of JS `Number(string)`: a numeric value or `NaN`.
`Number` never throws. -/
inductive JsNumber where
  | nan
  | val (q : Rat)
deriving DecidableEq, Repr

/-- Split a character list at the first `'.'`; `[l]` when there is no dot,
`[a, b]` for exactly one dot, `[]` (used as an invalid marker) for more
than one. -/
def splitDot (l : List Char) : List (List Char) :=
  let a := l.takeWhile (fun c => c != '.')
  let b := l.dropWhile (fun c => c != '.')
  match b with
  | [] => [a]
  | _ :: rest => if rest.contains '.' then [] else [a, rest]

/-- The body of a JS decimal literal (after sign stripping): digits,
optionally with one decimal point; at least one digit overall. -/
def decBody (l : List Char) : JsNumber :=
  match splitDot l with
  | [a] =>
      if a ≠ [] ∧ a.all isDigitCh then .val (natOfDigits a) else .nan
  | [a, b] =>
      if (a ≠ [] ∨ b ≠ []) ∧ a.all isDigitCh ∧ b.all isDigitCh then
        .val ((natOfDigits a : Rat) + (natOfDigits b : Rat) / ((10 : Rat) ^ b.length))
      else .nan
  | _ => .nan

/-- JS `Number(string)` on the fragment of inputs the file-id parsers can
produce: trimmed whitespace, empty string is 0, optional sign, decimal
literal; anything else (hex, exponents, `Infinity`) is `NaN`. -/
def jsNumber (s : List Char) : JsNumber :=
  let t := trimChars s
  match t with
  | [] => .val 0
  | '-' :: rest =>
      match decBody rest with
      | .val q => .val (-q)
      | .nan => .nan
  | '+' :: rest => decBody rest
  | l => decBody l

/-- `pat` is a prefix of `l`. -/
def matchesAt : List Char → List Char → Bool
  | [], _ => true
  | _ :: _, [] => false
  | p :: ps, c :: cs => p == c && matchesAt ps cs

/-- JS `String.prototype.replace(pat, "")` with a string pattern: removes
only the first occurrence. -/
def replFirst (pat : List Char) : List Char → List Char
  | [] => []
  | c :: cs =>
      if matchesAt pat (c :: cs) then (c :: cs).drop pat.length
      else c :: replFirst pat cs

/-! ## The file-id parsers (part_002 lines 567-593, part_001 lines 430-444)

A file id looks like `"24kb.2ch.12833676159346608193"`. -/

/-- part_002 `getNumChannelsByFile`: split on `"."`, take segment 1,
return `undefined` (`none`) when it is missing, else
`Number(segment.replace("ch", ""))`. The `try`/`catch` in the source is
dead: `Number` never throws. -/
def getNumChannelsByFile (file : String) : Option JsNumber :=
  match (splitOnChar '.' file.data).get? 1 with
  | none => none
  | some ch => some (jsNumber (replFirst "ch".data ch))

/-- part_002 `getBitrateByFile`: segment 0 (always present: `split` never
returns an empty array), `Number(segment.replace("kb", ""))`. -/
def getBitrateByFile (file : String) : Option JsNumber :=
  match (splitOnChar '.' file.data).get? 0 with
  | none => none
  | some br => some (jsNumber (replFirst "kb".data br))

/-- part_001 `getNumChannelsByFile`: `Number(split[1].replace(...))` in
a `try`; when segment 1 is missing the member access throws and the
`catch` yields `undefined`. -/
def getNumChannelsByFileV1 (file : String) : Option JsNumber :=
  match (splitOnChar '.' file.data).get? 1 with
  | none => none
  | some ch => some (jsNumber (replFirst "ch".data ch))

/-- part_001 `getBitrateByFile`, same shape on segment 0. -/
def getBitrateByFileV1 (file : String) : Option JsNumber :=
  match (splitOnChar '.' file.data).get? 0 with
  | none => none
  | some br => some (jsNumber (replFirst "kb".data br))

/-- `split` never returns an empty array. -/
theorem splitOnChar_ne_nil (sep : Char) (l : List Char) :
    splitOnChar sep l ≠ [] := by
  induction l with
  | nil => simp [splitOnChar]
  | cons c cs ih =>
      unfold splitOnChar
      by_cases h : c == sep
      · simp [h]
      · simp only [h]
        rcases hr : splitOnChar sep cs with _ | ⟨a, t⟩
        · exact absurd hr ih
        · simp

/-! ## Claim C8: parser error behavior -/

/-- C8 counterexample: `"24kb.xch.123"` is malformed (no integer channel
count can be extracted), yet `getNumChannelsByFile` returns `NaN`, not
`undefined`; and `getBitrateByFile "zz.1ch.5"` likewise returns `NaN`. -/
theorem parsers_nan_not_undefined_cex :
    getNumChannelsByFile "24kb.xch.123" = some JsNumber.nan ∧
      getNumChannelsByFile "24kb.xch.123" ≠ none ∧
      getBitrateByFile "zz.1ch.5" = some JsNumber.nan ∧
      getBitrateByFile "zz.1ch.5" ≠ none := by
  refine ⟨?_, ?_, ?_, ?_⟩ <;> decide

/-- C8 (amended): the parsers are total (`Number` never throws and the
missing-segment case is checked or caught), but `undefined` is returned
only when the dot-delimited segment is missing entirely:
`getNumChannelsByFile` yields `undefined` exactly when the id has no
`"."`, and `getBitrateByFile` never yields `undefined`; a present but
non-numeric segment yields `NaN` instead. Both variants (part_001 and
part_002) agree. -/
theorem parsers_undefined_iff_segment_missing (file : String) :
    (getNumChannelsByFile file = none ↔
        (splitOnChar '.' file.data).length < 2) ∧
      getBitrateByFile file ≠ none ∧
      getNumChannelsByFileV1 file = getNumChannelsByFile file ∧
      getBitrateByFileV1 file = getBitrateByFile file := by
  refine ⟨?_, ?_, rfl, rfl⟩
  · unfold getNumChannelsByFile
    rcases h : (splitOnChar '.' file.data).get? 1 with _ | ch
    · rw [List.get?_eq_none] at h
      simp
      omega
    · obtain ⟨hlt, -⟩ := List.get?_eq_some.mp h
      simp
      omega
  · unfold getBitrateByFile
    rcases h : (splitOnChar '.' file.data).get? 0 with _ | br
    · exfalso
      rw [List.get?_eq_none] at h
      have := splitOnChar_ne_nil '.' file.data
      rcases hx : splitOnChar '.' file.data with _ | ⟨a, t⟩
      · exact this hx
      · rw [hx] at h
        simp at h
    · simp

/-- C8 witness: the amended theorem at a dot-free malformed id, where the
channel parser does return `undefined` and the bitrate parser returns
`NaN`. -/
theorem parsers_undefined_iff_segment_missing_witness :
    (getNumChannelsByFile "badfile" = none ↔
        (splitOnChar '.' "badfile".data).length < 2) ∧
      getBitrateByFile "badfile" ≠ none ∧
      getNumChannelsByFileV1 "badfile" = getNumChannelsByFile "badfile" ∧
      getBitrateByFileV1 "badfile" = getBitrateByFile "badfile" :=
  parsers_undefined_iff_segment_missing "badfile"

end SManager

namespace SManager

/-! ## Buffer fill (part_002 lines 1045-1059, part_001 lines 870-889)

`fill(target, source)` copies `min(channels)` channels from source into
target. part_002's bulk path calls `source.copyFromChannel(targetChannel,
ch)`; with the repo's `MockAudioBuffer.copyFromChannel` that writes every
slot of the destination, reading `source[i] ?? 0`. Its fallback (taken
when a legacy source lacks `copyFromChannel`) does
`targetChannel.set(sourceChannel.subarray(0, ns))` with
`ns = min(lengths)`. part_001's bulk path does
`targetChannel.set(sourceChannel)`, which throws (and falls back to an
index-by-index loop bounded by `ns`) exactly when the source channel is
longer than the target channel. -/

/-- `MockAudioBuffer.copyFromChannel` into a destination of length
`tc.length`: every destination slot is written, source read with
`?? 0` padding. -/
def copyPad (tc sc : List Int) : List Int := sc.takeD tc.length 0

/-- Forward copy of the first `ns` samples, rest of the target kept. -/
def copyInto (ns : Nat) (tc sc : List Int) : List Int :=
  sc.take ns ++ tc.drop ns

/-- part_001's bulk per-channel copy `targetChannel.set(sourceChannel)`
(only reached when it does not throw, i.e. source fits). -/
def copySet (tc sc : List Int) : List Int := sc ++ tc.drop sc.length

/-- The `for (let ch = 0; ch < nch; ch++)` loop: apply `f target-channel
source-channel` to the first `nch` channel pairs, keep the rest of the
target's channels. -/
def zipChannels (f : List Int → List Int → List Int) :
    Nat → List (List Int) → List (List Int) → List (List Int)
  | 0, tchs, _ => tchs
  | _, [], _ => []
  | _ + 1, tchs, [] => tchs
  | n + 1, tc :: ts, sc :: ss => f tc sc :: zipChannels f n ts ss

/-- part_002 `fill`, bulk path (`copyFromChannel` available). -/
def fillBulk2 (t s : AudioBuffer) : AudioBuffer :=
  { t with channelData :=
      (zipChannels copyPad (min t.numberOfChannels s.numberOfChannels)
        t.channelData s.channelData) }

/-- part_001 `fill`, bulk path (`set` did not throw). -/
def fillBulk1 (t s : AudioBuffer) : AudioBuffer :=
  { t with channelData :=
      (zipChannels copySet (min t.numberOfChannels s.numberOfChannels)
        t.channelData s.channelData) }

/-- The fallback path shared by both fills: forward copy of
`min(target.length, source.length)` samples per channel. -/
def fillFallback (t s : AudioBuffer) : AudioBuffer :=
  { t with channelData :=
      (zipChannels (copyInto (min t.length s.length))
        (min t.numberOfChannels s.numberOfChannels)
        t.channelData s.channelData) }

/-- part_002 `fill`: the bulk loop throws on its first
`source.copyFromChannel` call iff the source is a legacy buffer, in which
case the catch runs the fallback. -/
def fill2 (t s : AudioBuffer) : AudioBuffer :=
  if s.legacy then fillFallback t s else fillBulk2 t s

/-- part_001 `fill`: `targetChannel.set(sourceChannel)` throws iff the
source channel is longer, in which case the catch runs the index-by-index
fallback. -/
def fill1 (t s : AudioBuffer) : AudioBuffer :=
  if s.length ≤ t.length then fillBulk1 t s else fillFallback t s

/-! ### Sample-level lemmas -/

theorem getD_append_lt (l1 l2 : List Int) (i : Nat) (h : i < l1.length) :
    (l1 ++ l2).getD i 0 = l1.getD i 0 := by
  induction l1 generalizing i with
  | nil => simp at h
  | cons a as ih =>
      cases i with
      | zero => rfl
      | succ j => exact ih j (by simpa using h)

theorem getD_append_ge (l1 l2 : List Int) (i : Nat) (h : l1.length ≤ i) :
    (l1 ++ l2).getD i 0 = l2.getD (i - l1.length) 0 := by
  induction l1 generalizing i with
  | nil => simp
  | cons a as ih =>
      cases i with
      | zero => simp at h
      | succ j =>
          simpa using ih j (by simpa using h)

theorem getD_take (l : List Int) (n i : Nat) :
    (l.take n).getD i 0 = if i < n then l.getD i 0 else 0 := by
  induction n generalizing l i with
  | zero => simp [List.getD]
  | succ m ih =>
      cases l with
      | nil =>
          cases i <;> simp [List.getD]
      | cons a as =>
          cases i with
          | zero => simp
          | succ j =>
              simpa [Nat.succ_lt_succ_iff] using ih as j

theorem getD_drop (l : List Int) (n i : Nat) :
    (l.drop n).getD i 0 = l.getD (n + i) 0 := by
  induction l generalizing n with
  | nil => simp
  | cons a as ih =>
      cases n with
      | zero => simp
      | succ m => simpa [Nat.succ_add] using ih m

theorem getD_takeD (l : List Int) (n i : Nat) :
    (List.takeD n l 0).getD i 0 = if i < n then l.getD i 0 else 0 := by
  induction n generalizing l i with
  | zero => simp [List.getD]
  | succ m ih =>
      cases l with
      | nil =>
          cases i with
          | zero => simp
          | succ j =>
              simp only [List.takeD]
              simpa [Nat.succ_lt_succ_iff, List.getD] using ih [] j
      | cons a as =>
          cases i with
          | zero => simp
          | succ j =>
              simpa [Nat.succ_lt_succ_iff] using ih as j

theorem copyPad_getD (tc sc : List Int) (i : Nat) :
    (copyPad tc sc).getD i 0 = if i < tc.length then sc.getD i 0 else 0 :=
  getD_takeD sc tc.length i

theorem copyInto_getD (ns : Nat) (tc sc : List Int) (i : Nat)
    (hns : ns ≤ sc.length) :
    (copyInto ns tc sc).getD i 0 = if i < ns then sc.getD i 0 else tc.getD i 0 := by
  unfold copyInto
  have hlen : (sc.take ns).length = ns := by
    simp [List.length_take]
    omega
  by_cases h : i < ns
  · rw [getD_append_lt _ _ _ (by omega), getD_take]
    simp [h]
  · rw [getD_append_ge _ _ _ (by omega), hlen, getD_drop]
    have : ns + (i - ns) = i := by omega
    rw [this]
    simp [h]

theorem copySet_getD (tc sc : List Int) (i : Nat) :
    (copySet tc sc).getD i 0 =
      if i < sc.length then sc.getD i 0 else tc.getD i 0 := by
  unfold copySet
  by_cases h : i < sc.length
  · rw [getD_append_lt _ _ _ h]
    simp [h]
  · rw [getD_append_ge _ _ _ (by omega), getD_drop]
    have : sc.length + (i - sc.length) = i := by omega
    rw [this]
    simp [h]

theorem zipChannels_getD_lt (f : List Int → List Int → List Int)
    (nch : Nat) (tchs schs : List (List Int)) (ch : Nat)
    (h1 : ch < nch) (h2 : ch < tchs.length) (h3 : ch < schs.length) :
    (zipChannels f nch tchs schs).getD ch [] =
      f (tchs.getD ch []) (schs.getD ch []) := by
  induction tchs generalizing nch schs ch with
  | nil => simp at h2
  | cons tc ts ih =>
      cases nch with
      | zero => omega
      | succ n =>
          cases schs with
          | nil => simp at h3
          | cons sc ss =>
              cases ch with
              | zero => rfl
              | succ c =>
                  have h1x : c < n := by omega
                  have h2x : c < ts.length := by simpa using h2
                  have h3x : c < ss.length := by simpa using h3
                  simpa [zipChannels] using ih n ss c h1x h2x h3x

theorem zipChannels_getD_ge (f : List Int → List Int → List Int)
    (nch : Nat) (tchs schs : List (List Int)) (ch : Nat)
    (h : nch ≤ ch ∨ schs.length ≤ ch) :
    (zipChannels f nch tchs schs).getD ch [] = tchs.getD ch [] := by
  induction tchs generalizing nch schs ch with
  | nil =>
      cases nch with
      | zero => rfl
      | succ n => cases schs <;> rfl
  | cons tc ts ih =>
      cases nch with
      | zero => rfl
      | succ n =>
          cases schs with
          | nil => rfl
          | cons sc ss =>
              cases ch with
              | zero =>
                  exfalso
                  simp only [List.length_cons] at h
                  omega
              | succ c =>
                  have h2 : n ≤ c ∨ ss.length ≤ c := by
                    simp only [List.length_cons] at h
                    omega
                  simpa [zipChannels] using ih n ss c h2

/-- A well-formed buffer's channel `ch < numberOfChannels` has the
advertised length. -/
theorem wf_channel_len (b : AudioBuffer) (hwf : b.WellFormed) (ch : Nat)
    (h : ch < b.numberOfChannels) :
    (b.channelData.getD ch []).length = b.length := by
  obtain ⟨hlen, hall⟩ := hwf
  have hch : ch < b.channelData.length := by omega
  have heq : b.channelData.getD ch [] = b.channelData.get ⟨ch, hch⟩ := by
    rw [List.getD_eq_getD_get?, List.get?_eq_get hch]
    rfl
  rw [heq]
  exact hall _ (List.get_mem _ _ _)

end SManager

namespace SManager

/-! ## Claim C5: what `fill` copies and what it leaves alone -/

/-- Concrete buffers for the C5/C3 witnesses: a 2-sample target holding
sevens and a 1-sample source holding a five. -/
def bufT5 : AudioBuffer :=
  { numberOfChannels := 1, length := 2, sampleRate := 48000,
    channelData := [[7, 7]] }

/-- 1-sample source buffer. -/
def bufS5 : AudioBuffer :=
  { numberOfChannels := 1, length := 1, sampleRate := 48000,
    channelData := [[5]] }

/-- C5 counterexample: part_002's bulk path (the repository's
`copyFromChannel`) writes the whole target channel, so with a 2-sample
target of sevens and a 1-sample source the tail sample becomes 0 instead
of staying 7 — it is not left unchanged. -/
theorem fill_bulk_zero_tail_cex :
    (fill2 bufT5 bufS5).sample 0 0 = 5 ∧
      (fill2 bufT5 bufS5).sample 0 1 = 0 ∧
      bufT5.sample 0 1 = 7 ∧ (0 : Int) ≠ 7 := by
  decide

/-- C5 (amended): for well-formed buffers both fills copy
`min(channels)` channels and agree with the source on the first
`min(lengths)` samples of each copied channel, and channels at or beyond
the channel minimum are untouched on every path; samples at or beyond the
length minimum are untouched on part_001's two paths and on part_002's
legacy fallback path, but part_002's bulk path (the repository's
`copyFromChannel`) zero-fills them instead. -/
theorem fill_copies_min_region (t s : AudioBuffer)
    (twf : t.WellFormed) (swf : s.WellFormed) (ch i : Nat) :
    (ch < min t.numberOfChannels s.numberOfChannels →
      i < min t.length s.length →
        (fillBulk1 t s).sample ch i = s.sample ch i ∧
        (fillBulk2 t s).sample ch i = s.sample ch i ∧
        (fillFallback t s).sample ch i = s.sample ch i) ∧
    (min t.numberOfChannels s.numberOfChannels ≤ ch →
        (fillBulk1 t s).sample ch i = t.sample ch i ∧
        (fillBulk2 t s).sample ch i = t.sample ch i ∧
        (fillFallback t s).sample ch i = t.sample ch i) ∧
    (ch < min t.numberOfChannels s.numberOfChannels →
      min t.length s.length ≤ i →
        (fillFallback t s).sample ch i = t.sample ch i ∧
        (s.length ≤ t.length → (fillBulk1 t s).sample ch i = t.sample ch i) ∧
        (fillBulk2 t s).sample ch i = 0) ∧
    fill1 t s = (if s.length ≤ t.length then fillBulk1 t s else fillFallback t s) ∧
    fill2 t s = (if s.legacy then fillFallback t s else fillBulk2 t s) := by
  have htn := twf.1
  have hsn := swf.1
  refine ⟨?_, ?_, ?_, rfl, rfl⟩
  · intro hch hi
    have hchT : ch < t.channelData.length := by omega
    have hchS : ch < s.channelData.length := by omega
    have hTlen := wf_channel_len t twf ch (by omega)
    have hSlen := wf_channel_len s swf ch (by omega)
    refine ⟨?_, ?_, ?_⟩
    · simp only [fillBulk1, AudioBuffer.sample]
      rw [zipChannels_getD_lt _ _ _ _ _ hch hchT hchS, copySet_getD]
      have his : i < (s.channelData.getD ch []).length := by rw [hSlen]; omega
      rw [if_pos his]
    · simp only [fillBulk2, AudioBuffer.sample]
      rw [zipChannels_getD_lt _ _ _ _ _ hch hchT hchS, copyPad_getD]
      have hit : i < (t.channelData.getD ch []).length := by rw [hTlen]; omega
      rw [if_pos hit]
    · simp only [fillFallback, AudioBuffer.sample]
      rw [zipChannels_getD_lt _ _ _ _ _ hch hchT hchS,
        copyInto_getD _ _ _ _ (by rw [hSlen]; omega)]
      rw [if_pos hi]
  · intro hch
    refine ⟨?_, ?_, ?_⟩
    · simp only [fillBulk1, AudioBuffer.sample]
      rw [zipChannels_getD_ge _ _ _ _ _ (Or.inl hch)]
    · simp only [fillBulk2, AudioBuffer.sample]
      rw [zipChannels_getD_ge _ _ _ _ _ (Or.inl hch)]
    · simp only [fillFallback, AudioBuffer.sample]
      rw [zipChannels_getD_ge _ _ _ _ _ (Or.inl hch)]
  · intro hch hi
    have hchT : ch < t.channelData.length := by omega
    have hchS : ch < s.channelData.length := by omega
    have hTlen := wf_channel_len t twf ch (by omega)
    have hSlen := wf_channel_len s swf ch (by omega)
    refine ⟨?_, ?_, ?_⟩
    · simp only [fillFallback, AudioBuffer.sample]
      rw [zipChannels_getD_lt _ _ _ _ _ hch hchT hchS,
        copyInto_getD _ _ _ _ (by rw [hSlen]; omega)]
      have hn : ¬ i < min t.length s.length := by omega
      rw [if_neg hn]
    · intro hts
      simp only [fillBulk1, AudioBuffer.sample]
      rw [zipChannels_getD_lt _ _ _ _ _ hch hchT hchS, copySet_getD]
      have hn : ¬ i < (s.channelData.getD ch []).length := by rw [hSlen]; omega
      rw [if_neg hn]
    · simp only [fillBulk2, AudioBuffer.sample]
      rw [zipChannels_getD_lt _ _ _ _ _ hch hchT hchS, copyPad_getD]
      by_cases hit : i < (t.channelData.getD ch []).length
      · have hsl : (s.channelData.getD ch []).length ≤ i := by
          rw [hSlen]
          rw [hTlen] at hit
          omega
        rw [if_pos hit]
        exact List.getD_eq_default _ _ hsl
      · rw [if_neg hit]

/-- C5 witness: the amended theorem at the concrete buffer pair, copy
region and tail region. -/
theorem fill_copies_min_region_witness :
    (fillBulk1 bufT5 bufS5).sample 0 0 = bufS5.sample 0 0 ∧
      (fillBulk2 bufT5 bufS5).sample 0 0 = bufS5.sample 0 0 ∧
      (fillFallback bufT5 bufS5).sample 0 0 = bufS5.sample 0 0 ∧
      (fillFallback bufT5 bufS5).sample 0 1 = bufT5.sample 0 1 ∧
      (fillBulk2 bufT5 bufS5).sample 0 1 = 0 := by
  have h0 := fill_copies_min_region bufT5 bufS5 (by decide) (by decide) 0 0
  have h1 := fill_copies_min_region bufT5 bufS5 (by decide) (by decide) 0 1
  obtain ⟨hc, -, -, -, -⟩ := h0
  obtain ⟨-, -, ht, -, -⟩ := h1
  have hc2 := hc (by decide) (by decide)
  have ht2 := ht (by decide) (by decide)
  exact ⟨hc2.1, hc2.2.1, hc2.2.2, ht2.1, ht2.2.2⟩

/-! ## Claim C3: the "reversed" buffer derivation -/

/-- The settled-decode continuation of `requestBufferReversedAsync`
(part_002 lines 475-494): allocate a buffer shaped like the forward
token's value, then `fill(buffer, decoded)` once the forward decode
settles; the token resolves with that buffer. -/
def reversedDerivedValue (fwdValue decoded : AudioBuffer) : AudioBuffer :=
  fill2 (createBuffer fwdValue.numberOfChannels fwdValue.length fwdValue.sampleRate)
    decoded

/-- The derivation the spec (and the code's own comment on the `reversed`
map) prescribes, for comparison: sample `i` of each source channel lands
at sample `length - 1 - i` of the target. -/
def specReversedBuffer (src : AudioBuffer) : AudioBuffer :=
  { src with channelData := src.channelData.map List.reverse }

/-- Decoded 3-sample mono buffer `[1, 2, 3]` used as the C3 failing
input. -/
def decodedC3 : AudioBuffer :=
  { numberOfChannels := 1, length := 3, sampleRate := 48000,
    channelData := [[1, 2, 3]] }

/-- C3 (code bug): on the decoded buffer `[1, 2, 3]` the code's reversed
derivation produces the forward copy `[1, 2, 3]`, not the reversal
`[3, 2, 1]`: the claimed identity `target[length-1-i] = source[i]` fails
at `i = 0`. -/
theorem reversedDerive_is_forward_copy_cex :
    (reversedDerivedValue decodedC3 decodedC3).channelData = [[1, 2, 3]] ∧
      (specReversedBuffer decodedC3).channelData = [[3, 2, 1]] ∧
      (reversedDerivedValue decodedC3 decodedC3).sample 0 (3 - 1 - 0) ≠
        decodedC3.sample 0 0 := by
  decide

end SManager

namespace SManager

/-! ## The SoundManager facade (part_002)

State, atlas lookups, and the cache operations the claims are about.
Package names in the atlas association list are assumed non-numeric, so
`Object.keys`/`Object.values` order is insertion order; source names (the
case claim C9 exercises) go through the JS key-ordering model below. -/

/-- A sound item `[source, file, numSamples, language]`. -/
structure SoundItem where
  source : String
  file : String
  numSamples : Nat
  language : String
deriving DecidableEq, Repr

/-- A package: ordered list of items. -/
abbrev Package := List SoundItem

/-- The atlas: JS object mapping package name to package, insertion
order. -/
abbrev SoundAtlas := List (String × Package)

/-- Manager run state (part_002 has exactly RUNNING and DISPOSED). -/
inductive MState where
  | RUNNING
  | DISPOSED
deriving DecidableEq, Repr

/-- A synchronous observable effect: a network fetch or a dispatched
manager event. -/
inductive Effect where
  | fetch (url : String)
  | event (name : String) (detail : String)
deriving DecidableEq, Repr

/-- The manager: constructor fields of `SoundManager` plus a token heap
(`tokens`/`nextId`, modelling object identity) and the effect log. -/
structure Mgr where
  state : MState
  atlas : SoundAtlas
  activePackageNames : List String
  activeLanguages : List String
  sourcePath : String
  fileExtension : String
  priorities : List String
  forward : List (String × Nat)
  reversed : List (String × Nat)
  tokens : List (Nat × SoundPromise)
  nextId : Nat
  sampleRate : Nat
  log : List Effect
deriving DecidableEq, Repr

/-- `getPackageItems(name)`: `[]` when disposed, else `atlas[name] ?? []`. -/
def getPackageItems (m : Mgr) (name : String) : Package :=
  if m.state = MState.DISPOSED then [] else (m.atlas.lookup name).getD []

/-- `getPackageNames()` with no argument: `Object.keys(atlas)`. -/
def getPackageNamesAll (m : Mgr) : List String :=
  if m.state = MState.DISPOSED then [] else m.atlas.map (·.1)

/-- `getPackages(names?)`: the packages for the given names (skipping
names absent from the atlas), or all packages. -/
def getPackages (m : Mgr) (names : Option (List String)) : List Package :=
  if m.state = MState.DISPOSED then []
  else
    match names with
    | none => m.atlas.map (·.2)
    | some ns =>
        (ns.filter (fun n => (m.atlas.lookup n).isSome)).map (getPackageItems m)

/-- `getLanguages(packageNames)`: first-seen-unique language tags of the
selected packages (the double loop with an `includes` check). -/
def getLanguages (m : Mgr) (pns : List String) : List String :=
  if m.state ≠ MState.RUNNING then []
  else
    (getPackages m (some pns)).foldl
      (fun acc pack =>
        pack.foldl
          (fun a it => if it.language ∈ a then a else a ++ [it.language]) acc)
      []

/-- `findItemBySourceName`: first item over the given packages (priority
order, stored item order) whose source matches and whose language is
active. -/
def findItemBySourceName (m : Mgr) (src : String)
    (pns langs : List String) : Option SoundItem :=
  if m.state ≠ MState.RUNNING then none
  else
    ((pns.map (getPackageItems m)).join).find?
      (fun it => it.source == src && langs.contains it.language)

/-- `findItemBySourceName` with its default arguments. -/
def findItemActive (m : Mgr) (src : String) : Option SoundItem :=
  findItemBySourceName m src m.activePackageNames m.activeLanguages

/-- `findItemByFileName` over the active packages. -/
def findItemByFileName (m : Mgr) (file : String) : Option SoundItem :=
  if m.state ≠ MState.RUNNING then none
  else
    ((m.activePackageNames.map (getPackageItems m)).join).find?
      (fun it => it.file == file)

/-- `getUrlByFile`: `{sourcePath}/{file}{fileExtension}`. -/
def urlByFile (m : Mgr) (file : String) : String :=
  m.sourcePath ++ "/" ++ file ++ m.fileExtension

/-- JS ToLength as used by `Array.from({length: n})` in the mock
`createBuffer`: `undefined` and `NaN` become 0, negatives clamp to 0,
fractions floor. -/
def jsToLength : Option JsNumber → Nat
  | none => 0
  | some JsNumber.nan => 0
  | some (JsNumber.val q) => if q ≤ 0 then 0 else q.floor.toNat

/-- Allocate a fresh token on the heap. -/
def allocToken (m : Mgr) (tok : SoundPromise) : Nat × Mgr :=
  (m.nextId, { m with nextId := m.nextId + 1, tokens := (m.nextId, tok) :: m.tokens })

/-- `loadItem(item)` (part_002 lines 732-764): `SoundPromise.from(null)`
when not RUNNING; the cached token when `forward` has the file; otherwise
allocate a silence buffer from the parsed channel count and the item's
sample count, store a new token (value pre-assigned), start `load(url)`
(one fetch; the decoder is always present) and dispatch "fileloading". -/
def loadItem (m : Mgr) (item : SoundItem) : Nat × Mgr :=
  if m.state ≠ MState.RUNNING then allocToken m SoundPromise.fromNull
  else
    match m.forward.lookup item.file with
    | some id => (id, m)
    | none =>
        let nc := getNumChannelsByFile item.file
        let buffer := createBuffer (jsToLength nc) item.numSamples m.sampleRate
        let id := m.nextId
        let tok : SoundPromise :=
          { state := SPState.LOADING, value := some buffer, settled := none }
        (id,
          { m with
              nextId := id + 1
              tokens := (id, tok) :: m.tokens
              forward := (item.file, id) :: m.forward
              log := m.log ++
                [Effect.fetch (urlByFile m item.file),
                 Effect.event "fileloading" item.file] })

/-- Number of fetches of `url` in the log. -/
def countFetch (log : List Effect) (url : String) : Nat :=
  (log.filter (fun e => e == Effect.fetch url)).length

/-- `setAtlas(atlas)`. -/
def setAtlas (m : Mgr) (a : SoundAtlas) : Mgr :=
  if m.state ≠ MState.RUNNING then m
  else { m with atlas := a, log := m.log ++ [Effect.event "atlasloaded" ""] }

/-- `setLanguage(language)` (part_002 lines 203-226). -/
def setLanguage (m : Mgr) (language : String) : Bool × Mgr :=
  if m.state ≠ MState.RUNNING then (false, m)
  else if m.activeLanguages.head? = some language then (false, m)
  else if language ∉ getLanguages m (getPackageNamesAll m) then (false, m)
  else
    let langs :=
      if language ∈ m.activeLanguages then
        language :: m.activeLanguages.erase language
      else language :: m.activeLanguages
    (true,
      { m with
          activeLanguages := langs
          log := m.log ++ [Effect.event "languagechanged" language] })

/-- `setPackageByName(packageName)`. -/
def setPackageByName (m : Mgr) (packageName : String) : Bool × Mgr :=
  if m.state ≠ MState.RUNNING ∨ m.activePackageNames.head? = some packageName then
    (false, m)
  else
    match m.atlas.lookup packageName with
    | none => (false, m)
    | some _ =>
        if packageName ∈ m.activePackageNames then
          (true,
            { m with
                activePackageNames :=
                  packageName :: m.activePackageNames.erase packageName
                log := m.log ++ [Effect.event "packagechanged" packageName] })
        else (false, m)

/-- `setLoadPath(path)`. -/
def setLoadPath (m : Mgr) (path : String) : Mgr :=
  if m.state ≠ MState.RUNNING then m
  else { m with sourcePath := path, log := m.log ++ [Effect.event "loadpathchanged" path] }

/-- `setPriorityList(sourceNames)`: no run-state check in the source. -/
def setPriorityList (m : Mgr) (sourceNames : List String) : Mgr :=
  { m with priorities := sourceNames }

/-- `requestBufferAsync(sourceName)`: resolve, then `loadItem`, else a
fresh null-resolved token. -/
def requestBufferAsync (m : Mgr) (src : String) : Nat × Mgr :=
  match findItemActive m src with
  | none => allocToken m SoundPromise.fromNull
  | some it => loadItem m it

/-- `requestBufferSync(sourceName)`: the `.value` of the async token. -/
def requestBufferSync (m : Mgr) (src : String) : Option AudioBuffer × Mgr :=
  let r := requestBufferAsync m src
  ((r.2.tokens.lookup r.1).bind SoundPromise.value, r.2)

/-- `loadFile(file)`: cached token, else resolve by file name and
`loadItem`, else "fileloaderror" and a null token. -/
def loadFile (m : Mgr) (file : String) : Nat × Mgr :=
  if m.state ≠ MState.RUNNING then allocToken m SoundPromise.fromNull
  else
    match m.forward.lookup file with
    | some id => (id, m)
    | none =>
        match findItemByFileName m file with
        | none =>
            allocToken
              { m with log := m.log ++ [Effect.event "fileloaderror" file] }
              SoundPromise.fromNull
        | some it => loadItem m it

/-- Update the token with the given id on the heap. -/
def updateToken (tokens : List (Nat × SoundPromise)) (id : Nat)
    (f : SoundPromise → SoundPromise) : List (Nat × SoundPromise) :=
  tokens.map (fun e => if e.1 = id then (e.1, f e.2) else e)

/-- `disposeFile(file)`: no-op when disposed; otherwise dispose and drop
the forward and reversed tokens for the file. -/
def disposeFile (m : Mgr) (file : String) : Mgr :=
  if m.state = MState.DISPOSED then m
  else
    let m1 :=
      match m.forward.lookup file with
      | some id => { m with tokens := updateToken m.tokens id SoundPromise.disposeOp }
      | none => m
    let m2 := { m1 with forward := m1.forward.filter (fun e => e.1 != file) }
    let m3 :=
      match m2.reversed.lookup file with
      | some id => { m2 with tokens := updateToken m2.tokens id SoundPromise.disposeOp }
      | none => m2
    { m3 with reversed := m3.reversed.filter (fun e => e.1 != file) }

/-- `disposeItem(item)`. -/
def disposeItemM (m : Mgr) (item : SoundItem) : Mgr :=
  disposeFile m item.file

/-- `disposePackages(packageNames)`: the double loop over the selected
packages' items. -/
def disposePackages (m : Mgr) (pns : List String) : Mgr :=
  if m.state = MState.DISPOSED then m
  else
    (getPackages m (some pns)).foldl
      (fun acc pack => pack.foldl disposeItemM acc) m

/-- `dispose()`: dispose every package's items, then state DISPOSED.
(The listener registry is outside this model.) -/
def disposeM (m : Mgr) : Mgr :=
  if m.state = MState.DISPOSED then m
  else { disposePackages m (getPackageNamesAll m) with state := MState.DISPOSED }

/-- `reload()`: `dispose()` then state RUNNING and a "reloaded" event. -/
def reloadM (m : Mgr) : Mgr :=
  let m1 := disposeM m
  { m1 with state := MState.RUNNING, log := m1.log ++ [Effect.event "reloaded" ""] }

/-- The items `dispose()` walks: all packages of the atlas, flattened. -/
def disposalItems (m : Mgr) : List SoundItem :=
  (getPackages m (some (getPackageNamesAll m))).join

end SManager

namespace SManager

/-! ## `unique` and `getSourceNames` (part_002 lines 317-331, 1083-1089)

`unique` inserts each name as a key of a plain JS object and returns
`Object.keys`. JS own-key enumeration puts canonical array-index keys
first in ascending numeric order, then string keys in insertion order;
assigning to `"__proto__"` on an object literal never creates an own
key. -/

/-- First-seen deduplication (JS object insertion order: re-setting an
existing key keeps its position). -/
def dedupFSGo (seen : List String) : List String → List String
  | [] => []
  | x :: xs =>
      if x ∈ seen then dedupFSGo seen xs
      else x :: dedupFSGo (x :: seen) xs

/-- First-seen deduplication. -/
def dedupFS (l : List String) : List String := dedupFSGo [] l

/-- Canonical array-index string: `"0"`, or digits with no leading zero,
below `2^32 - 1`. -/
def isArrayIdx (s : String) : Bool :=
  match s.data with
  | [] => false
  | l =>
      l.all isDigitCh && (l == ['0'] || l.head? != some '0') &&
        decide (natOfDigits l < 2 ^ 32 - 1)

/-- Insertion into a list kept ascending by numeric value. -/
def insertNumeric (x : String) : List String → List String
  | [] => [x]
  | y :: ys =>
      if natOfDigits x.data ≤ natOfDigits y.data then x :: y :: ys
      else y :: insertNumeric x ys

/-- Sort ascending by numeric value (insertion sort; the keys are
distinct). -/
def sortNumeric (l : List String) : List String := l.foldr insertNumeric []

/-- `unique(arr)` with JS own-key enumeration order. -/
def uniqueJs (arr : List String) : List String :=
  let keys := dedupFS (arr.filter (fun s => s != "__proto__"))
  sortNumeric (keys.filter isArrayIdx) ++ keys.filter (fun k => !(isArrayIdx k))

/-- The scan inside `getSourceNames`: packages in the given order, items
in stored order, keeping sources whose language is selected. -/
def collectSourceNames (m : Mgr) (pns langs : List String) : List String :=
  (((getPackages m (some pns)).join).filter
    (fun it => langs.contains it.language)).map (·.source)

/-- `getSourceNames(packageNames, languages)`: the scan, then `unique`. -/
def getSourceNames (m : Mgr) (pns langs : List String) : List String :=
  if m.state ≠ MState.RUNNING then []
  else uniqueJs (collectSourceNames m pns langs)

end SManager

namespace SManager

/-! ## Claim C2: one fetch per file, shared token -/

/-- C2: while RUNNING, the first `loadItem` for a file adds exactly one
fetch of the file's URL and maps the file to the returned token id; any
`loadItem` finding the file cached returns exactly the cached token id
with the manager unchanged (so no fetch, and the very same token). -/
theorem loadItem_dedup_single_fetch (m : Mgr) (item : SoundItem)
    (hrun : m.state = MState.RUNNING) :
    (m.forward.lookup item.file = none →
      countFetch (loadItem m item).2.log (urlByFile m item.file) =
          countFetch m.log (urlByFile m item.file) + 1 ∧
        (loadItem m item).2.forward.lookup item.file =
          some (loadItem m item).1) ∧
    ∀ id, m.forward.lookup item.file = some id → loadItem m item = (id, m) := by
  constructor
  · intro hnone
    unfold loadItem
    rw [if_neg (by simp [hrun])]
    rw [hnone]
    constructor
    · have hne : (Effect.event "fileloading" item.file ==
          Effect.fetch (urlByFile m item.file)) = false := by
        rw [beq_eq_false_iff_ne]
        simp
      simp [countFetch, List.filter_append, List.filter, beq_iff_eq, hne]
    · simp [List.lookup]
  · intro id hid
    unfold loadItem
    rw [if_neg (by simp [hrun])]
    rw [hid]

/-- The manager used in the C2 and C4 witnesses: freshly RUNNING, empty
caches, one-package atlas. -/
def mgrW : Mgr :=
  { state := MState.RUNNING
    atlas := [("p", [⟨"a", "24kb.1ch.111", 2, "en"⟩])]
    activePackageNames := ["p"]
    activeLanguages := ["en", "_"]
    sourcePath := "./encoded"
    fileExtension := ".webm"
    priorities := []
    forward := []
    reversed := []
    tokens := []
    nextId := 0
    sampleRate := 48000
    log := [] }

/-- The item loaded in the C2 witness. -/
def itemW : SoundItem := ⟨"a", "24kb.1ch.111", 2, "en"⟩

/-- C2 witness: loading `itemW` into the fresh manager fetches once, and
loading it again returns the identical token id with the manager
unchanged. -/
theorem loadItem_dedup_single_fetch_witness :
    (countFetch (loadItem mgrW itemW).2.log (urlByFile mgrW itemW.file) =
        countFetch mgrW.log (urlByFile mgrW itemW.file) + 1 ∧
      (loadItem mgrW itemW).2.forward.lookup itemW.file =
        some (loadItem mgrW itemW).1) ∧
      loadItem (loadItem mgrW itemW).2 itemW =
        ((loadItem mgrW itemW).1, (loadItem mgrW itemW).2) := by
  have h := loadItem_dedup_single_fetch mgrW itemW rfl
  have h1 := h.1 (by decide)
  refine ⟨h1, ?_⟩
  have h2 := loadItem_dedup_single_fetch (loadItem mgrW itemW).2 itemW (by decide)
  exact h2.2 _ h1.2

/-! ## Claim C4: loadItem is total, also on malformed file ids -/

/-- The channel parse produced a positive integer. -/
def isPositiveIntChannels : Option JsNumber → Bool
  | some (JsNumber.val q) => decide (0 < q ∧ q.den = 1)
  | _ => false

/-- C4: while RUNNING, `loadItem` on an item whose file id does not parse
to a positive integer channel count still returns a token registered
under the item's file — no operation on the path throws (`Number` is
total and the repository's `createBuffer` accepts any coerced length). -/
theorem loadItem_total_on_malformed (m : Mgr) (item : SoundItem)
    (hrun : m.state = MState.RUNNING)
    (hmal : isPositiveIntChannels (getNumChannelsByFile item.file) = false) :
    (loadItem m item).2.forward.lookup item.file = some (loadItem m item).1 := by
  unfold loadItem
  rw [if_neg (by simp [hrun])]
  cases hl : m.forward.lookup item.file with
  | none => simp [List.lookup]
  | some id => simpa using hl

/-- The malformed item of the C4 witness: its file id has no dots, so the
channel parse yields `undefined`. -/
def itemBad : SoundItem := ⟨"bad", "badfile", 2, "en"⟩

/-- C4 witness: the theorem at the fresh manager and the malformed item. -/
theorem loadItem_total_on_malformed_witness :
    (loadItem mgrW itemBad).2.forward.lookup itemBad.file =
      some (loadItem mgrW itemBad).1 :=
  loadItem_total_on_malformed mgrW itemBad rfl (by decide)

/-! ## Claim C6: setLanguage -/

/-- C6: `setLanguage` returns `false` and changes nothing when not
RUNNING, when the tag is already first, or when the tag is not an
available language; otherwise it returns `true`, moves/inserts the tag to
the front keeping every other member (the result is exactly
`tag :: erase tag`), and emits "languagechanged". -/
theorem setLanguage_spec (m : Mgr) (lang : String) :
    ((m.state ≠ MState.RUNNING ∨ m.activeLanguages.head? = some lang ∨
        lang ∉ getLanguages m (getPackageNamesAll m)) →
      setLanguage m lang = (false, m)) ∧
    (m.state = MState.RUNNING → m.activeLanguages.head? ≠ some lang →
      lang ∈ getLanguages m (getPackageNamesAll m) →
      setLanguage m lang =
        (true,
          { m with
              activeLanguages := lang :: m.activeLanguages.erase lang
              log := m.log ++ [Effect.event "languagechanged" lang] })) := by
  constructor
  · intro h
    unfold setLanguage
    rcases h with h | h | h
    · rw [if_pos h]
    · by_cases h0 : m.state ≠ MState.RUNNING
      · rw [if_pos h0]
      · rw [if_neg h0, if_pos h]
    · by_cases h0 : m.state ≠ MState.RUNNING
      · rw [if_pos h0]
      · rw [if_neg h0]
        by_cases h1 : m.activeLanguages.head? = some lang
        · rw [if_pos h1]
        · rw [if_neg h1, if_pos h]
  · intro h0 h1 h2
    unfold setLanguage
    rw [if_neg (by simp [h0]), if_neg h1, if_neg (by simp [h2])]
    by_cases hmem : lang ∈ m.activeLanguages
    · simp [hmem]
    · rw [if_neg hmem, List.erase_of_not_mem hmem]

/-- The manager of the C6 witness: English active, Swedish available. -/
def mgrC6 : Mgr :=
  { mgrW with
      atlas := [("p", [⟨"a", "24kb.1ch.111", 2, "en"⟩,
                       ⟨"a", "24kb.1ch.222", 2, "sv"⟩])] }

/-- C6 witness: switching the witness manager to Swedish succeeds, moves
"sv" to the front of the active list, and logs the event; switching to
the already-first "en" fails and changes nothing. -/
theorem setLanguage_spec_witness :
    setLanguage mgrC6 "sv" =
      (true,
        { mgrC6 with
            activeLanguages := "sv" :: mgrC6.activeLanguages.erase "sv"
            log := mgrC6.log ++ [Effect.event "languagechanged" "sv"] }) ∧
      setLanguage mgrC6 "en" = (false, mgrC6) :=
  ⟨(setLanguage_spec mgrC6 "sv").2 rfl (by decide) (by decide),
    (setLanguage_spec mgrC6 "en").1 (Or.inr (Or.inl (by decide)))⟩

end SManager

namespace SManager

/-! ## Claim C7: behavior after dispose, and reload -/

/-- Effect of `disposeFile` on a RUNNING manager: state and atlas are
kept, and the file's entry is removed from the forward map. -/
theorem disposeFile_eff (m : Mgr) (f : String) (h : m.state = MState.RUNNING) :
    (disposeFile m f).state = MState.RUNNING ∧
      (disposeFile m f).atlas = m.atlas ∧
      (disposeFile m f).forward = m.forward.filter (fun e => e.1 != f) := by
  unfold disposeFile
  rw [if_neg (by simp [h])]
  cases h1 : m.forward.lookup f <;> cases h2 : m.reversed.lookup f <;>
    simp [h1, h2, h]

/-- Folding `disposeItem` over a list of items keeps the state and atlas
and removes exactly those forward entries whose file occurs in the
list. -/
theorem disposeFold (items : List SoundItem) (m : Mgr)
    (h : m.state = MState.RUNNING) :
    (items.foldl disposeItemM m).state = MState.RUNNING ∧
      (items.foldl disposeItemM m).atlas = m.atlas ∧
      (items.foldl disposeItemM m).forward =
        m.forward.filter (fun e => !((items.map SoundItem.file).contains e.1)) := by
  induction items generalizing m with
  | nil => simp [h]
  | cons it its ih =>
      obtain ⟨h1, h2, h3⟩ := disposeFile_eff m it.file h
      obtain ⟨ih1, ih2, ih3⟩ := ih (disposeItemM m it) h1
      refine ⟨ih1, ?_, ?_⟩
      · rw [List.foldl_cons, ih2]
        exact h2
      · rw [List.foldl_cons, ih3]
        show (disposeFile m it.file).forward.filter _ = _
        rw [h3, List.filter_filter]
        apply List.filter_congr
        intro e he
        by_cases hx : e.1 = it.file <;> simp [hx, bne]

/-- The nested package/item loop is the fold over the flattened items. -/
theorem foldl_nested_join {α β : Type} (g : β → α → β) (L : List (List α)) (b : β) :
    L.foldl (fun acc l => l.foldl g acc) b = (L.join).foldl g b := by
  induction L generalizing b with
  | nil => rfl
  | cons l ls ih =>
      simp only [List.join_cons, List.foldl_append, List.foldl_cons]
      exact ih _

/-- `dispose()` on a DISPOSED manager is the identity. -/
theorem disposeM_disposed_fix (x : Mgr) (hx : x.state = MState.DISPOSED) :
    disposeM x = x := by
  unfold disposeM
  rw [if_pos hx]

/-- `dispose()` on a RUNNING manager whose cached files all occur in the
atlas ends DISPOSED with an empty forward cache. -/
theorem dispose_empties_forward (m : Mgr) (h : m.state = MState.RUNNING)
    (hkeys : ∀ e ∈ m.forward, e.1 ∈ (disposalItems m).map SoundItem.file) :
    (disposeM m).state = MState.DISPOSED ∧ (disposeM m).forward = [] := by
  unfold disposeM
  rw [if_neg (by simp [h])]
  unfold disposePackages
  rw [if_neg (by simp [h])]
  rw [foldl_nested_join]
  obtain ⟨-, -, h3⟩ :=
    disposeFold ((getPackages m (some (getPackageNamesAll m))).join) m h
  refine ⟨rfl, ?_⟩
  show (((getPackages m (some (getPackageNamesAll m))).join).foldl
      disposeItemM m).forward = []
  rw [h3]
  apply List.filter_eq_nil.mpr
  intro e he
  have hmem := hkeys e he
  simp only [disposalItems] at hmem
  have hc : (((getPackages m (some (getPackageNamesAll m))).join).map
      SoundItem.file).contains e.1 = true :=
    List.elem_eq_true_of_mem hmem
  show ¬((!(((getPackages m (some (getPackageNamesAll m))).join).map
      SoundItem.file).contains e.1) = true)
  rw [hc]
  decide

/-- C7 (amended): on a DISPOSED manager every modelled mutating call
except `setPriorityList` is a silent no-op returning false/null/empty
(`requestBufferSync` returns `null` for every source name, `loadFile`
hands back a null-valued token, `disposeFile` and `dispose` change
nothing); `setPriorityList` alone still replaces the priority list (it
returns nothing and does not throw). `dispose()` on a RUNNING manager
whose cached files all occur in the atlas, followed by `reload()`,
restores RUNNING with an empty forward cache. -/
theorem disposed_noop_and_reload (m m2 : Mgr)
    (h : m.state = MState.DISPOSED)
    (a : SoundAtlas) (lang nm path src file : String) (ps : List String)
    (h2 : m2.state = MState.RUNNING)
    (hkeys : ∀ e ∈ m2.forward, e.1 ∈ (disposalItems m2).map SoundItem.file) :
    setAtlas m a = m ∧
      setLanguage m lang = (false, m) ∧
      setPackageByName m nm = (false, m) ∧
      setLoadPath m path = m ∧
      (requestBufferSync m src).1 = none ∧
      (requestBufferSync m src).2.forward = m.forward ∧
      (requestBufferSync m src).2.log = m.log ∧
      ((loadFile m file).2.tokens.lookup (loadFile m file).1).bind
          SoundPromise.value = none ∧
      (loadFile m file).2.log = m.log ∧
      disposeFile m file = m ∧
      disposeM m = m ∧
      (setPriorityList m ps).priorities = ps ∧
      (reloadM (disposeM m2)).state = MState.RUNNING ∧
      (reloadM (disposeM m2)).forward = [] := by
  have hnr : ¬ m.state = MState.RUNNING := by simp [h]
  obtain ⟨hd1, hd2⟩ := dispose_empties_forward m2 h2 hkeys
  have hfix := disposeM_disposed_fix (disposeM m2) hd1
  refine ⟨?_, ?_, ?_, ?_, ?_, ?_, ?_, ?_, ?_, ?_, ?_, rfl, ?_, ?_⟩
  · unfold setAtlas
    rw [if_pos hnr]
  · unfold setLanguage
    rw [if_pos hnr]
  · unfold setPackageByName
    rw [if_pos (Or.inl hnr)]
  · unfold setLoadPath
    rw [if_pos hnr]
  · simp [requestBufferSync, requestBufferAsync, findItemActive,
      findItemBySourceName, hnr, allocToken, List.lookup,
      SoundPromise.fromNull, SoundPromise.resolveOp]
  · simp [requestBufferSync, requestBufferAsync, findItemActive,
      findItemBySourceName, hnr, allocToken]
  · simp [requestBufferSync, requestBufferAsync, findItemActive,
      findItemBySourceName, hnr, allocToken]
  · simp [loadFile, hnr, allocToken, List.lookup,
      SoundPromise.fromNull, SoundPromise.resolveOp]
  · simp [loadFile, hnr, allocToken]
  · unfold disposeFile
    rw [if_pos h]
  · exact disposeM_disposed_fix m h
  · unfold reloadM
    rw [hfix]
  · unfold reloadM
    rw [hfix]
    exact hd2

/-- A disposed manager for the C7 theorems. -/
def mgrD : Mgr := { mgrW with state := MState.DISPOSED }

/-- A RUNNING manager with one cached file, which is listed in the
atlas. -/
def mgrR : Mgr :=
  { mgrW with
      forward := [("24kb.1ch.111", 0)]
      tokens := [(0, SoundPromise.fromNull)]
      nextId := 1 }

/-- C7 counterexample: `setPriorityList` on a DISPOSED manager is not a
no-op — it replaces the priority list, so not every mutating call is
silent after disposal. -/
theorem setPriorityList_mutates_after_dispose_cex :
    (setPriorityList mgrD ["a"]).priorities = ["a"] ∧
      mgrD.priorities = [] ∧
      setPriorityList mgrD ["a"] ≠ mgrD := by
  decide

/-- C7 witness: the amended theorem at the concrete disposed manager and
the concrete loaded RUNNING manager. -/
theorem disposed_noop_and_reload_witness :
    setAtlas mgrD [] = mgrD ∧
      setLanguage mgrD "sv" = (false, mgrD) ∧
      setPackageByName mgrD "p" = (false, mgrD) ∧
      setLoadPath mgrD "x" = mgrD ∧
      (requestBufferSync mgrD "a").1 = none ∧
      (requestBufferSync mgrD "a").2.forward = mgrD.forward ∧
      (requestBufferSync mgrD "a").2.log = mgrD.log ∧
      ((loadFile mgrD "f").2.tokens.lookup (loadFile mgrD "f").1).bind
          SoundPromise.value = none ∧
      (loadFile mgrD "f").2.log = mgrD.log ∧
      disposeFile mgrD "f" = mgrD ∧
      disposeM mgrD = mgrD ∧
      (setPriorityList mgrD ["a"]).priorities = ["a"] ∧
      (reloadM (disposeM mgrR)).state = MState.RUNNING ∧
      (reloadM (disposeM mgrR)).forward = [] :=
  disposed_noop_and_reload mgrD mgrR rfl [] "sv" "p" "x" "a" "f" ["a"] rfl
    (by decide)

end SManager

namespace SManager

/-! ## Claim C9: getSourceNames order -/

/-- Everything `dedupFSGo` keeps came from its input. -/
theorem dedupFSGo_subset (l : List String) (seen : List String) (x : String)
    (hx : x ∈ dedupFSGo seen l) : x ∈ l := by
  induction l generalizing seen with
  | nil => simpa [dedupFSGo] using hx
  | cons y ys ih =>
      unfold dedupFSGo at hx
      by_cases hy : y ∈ seen
      · rw [if_pos hy] at hx
        exact List.mem_cons_of_mem y (ih _ hx)
      · rw [if_neg hy] at hx
        rcases List.mem_cons.mp hx with h | h
        · exact h ▸ List.mem_cons_self y ys
        · exact List.mem_cons_of_mem y (ih _ h)

/-- Everything `dedupFS` keeps came from its input. -/
theorem dedupFS_subset (l : List String) (x : String) (hx : x ∈ dedupFS l) :
    x ∈ l :=
  dedupFSGo_subset l [] x hx

/-- C9 counterexample: with source names `"b"` then `"1"`, `unique`'s JS
object enumeration puts the array-index key `"1"` first, so the result is
`["1", "b"]`, not the first-seen order `["b", "1"]`. -/
theorem getSourceNames_numeric_first_cex :
    getSourceNames { mgrW with
        atlas := [("p", [⟨"b", "f1", 1, "en"⟩, ⟨"1", "f2", 1, "en"⟩])] }
      ["p"] ["en"] = ["1", "b"] ∧
      collectSourceNames { mgrW with
          atlas := [("p", [⟨"b", "f1", 1, "en"⟩, ⟨"1", "f2", 1, "en"⟩])] }
        ["p"] ["en"] = ["b", "1"] ∧
      getSourceNames { mgrW with
          atlas := [("p", [⟨"b", "f1", 1, "en"⟩, ⟨"1", "f2", 1, "en"⟩])] }
        ["p"] ["en"] ≠
        dedupFS (collectSourceNames { mgrW with
            atlas := [("p", [⟨"b", "f1", 1, "en"⟩, ⟨"1", "f2", 1, "en"⟩])] }
          ["p"] ["en"]) := by
  refine ⟨?_, ?_, ?_⟩ <;> decide

/-- C9 (amended): while RUNNING, `getSourceNames` is the language-filtered
scan of the given packages in order (items in stored order), deduplicated;
the order is first-seen provided no kept source name is a canonical
array-index string or `"__proto__"` (otherwise JS object key enumeration
reorders: numeric keys first, ascending, and `"__proto__"` is dropped). -/
theorem getSourceNames_firstseen (m : Mgr) (pns langs : List String)
    (h : m.state = MState.RUNNING)
    (hplain : ∀ s ∈ collectSourceNames m pns langs,
      isArrayIdx s = false ∧ s ≠ "__proto__") :
    getSourceNames m pns langs = dedupFS (collectSourceNames m pns langs) := by
  unfold getSourceNames
  rw [if_neg (by simp [h])]
  unfold uniqueJs
  have hfil : (collectSourceNames m pns langs).filter (fun s => s != "__proto__") =
      collectSourceNames m pns langs := by
    apply List.filter_eq_self.mpr
    intro s hs
    simpa [bne] using (hplain s hs).2
  rw [hfil]
  have hsub : ∀ s ∈ dedupFS (collectSourceNames m pns langs),
      isArrayIdx s = false := fun s hs =>
    (hplain s (dedupFS_subset _ _ hs)).1
  have hidx : (dedupFS (collectSourceNames m pns langs)).filter isArrayIdx = [] := by
    apply List.filter_eq_nil.mpr
    intro a ha
    rw [hsub a ha]
    simp
  have hnon : (dedupFS (collectSourceNames m pns langs)).filter
      (fun k => !(isArrayIdx k)) = dedupFS (collectSourceNames m pns langs) := by
    apply List.filter_eq_self.mpr
    intro a ha
    rw [hsub a ha]
    rfl
  show sortNumeric (List.filter isArrayIdx (dedupFS (collectSourceNames m pns langs))) ++
      List.filter (fun k => !isArrayIdx k) (dedupFS (collectSourceNames m pns langs)) =
    dedupFS (collectSourceNames m pns langs)
  rw [hidx, hnon]
  rfl

/-- C9 witness: the amended theorem at the witness manager (plain,
non-numeric source names). -/
theorem getSourceNames_firstseen_witness :
    getSourceNames mgrW ["p"] ["en"] =
      dedupFS (collectSourceNames mgrW ["p"] ["en"]) :=
  getSourceNames_firstseen mgrW ["p"] ["en"] rfl (by decide)

end SManager
